import Mathlib

/-!
Verification development for the `ingress_per_unit` interface library
(`src/lib/charms/traefik_k8s/v0/ingress_per_unit.py`).

Modelling conventions:

* Relation databags are modelled at document granularity: the value stored
  under the `"data"` key of a databag is an `Option Val`, where `Val` is the
  deserialized document (yaml dictionaries, strings, integers, null) and
  `none` models an absent key or an empty string (the library treats the two
  alike through Python truthiness checks on the raw text).
* Exceptions are modelled with `Except Err`: a Python `raise` is
  `Except.error`, a normal return is `Except.ok`.  Mutating operations
  return the post-state of the relation so that "the databag was left
  unmodified" is expressible.
* The `relation=None` dispatch forms of the predicate methods (which map the
  predicate over every relation) are not modelled; every claim quantifies
  over an explicit relation.
* External collaborators (the Juju relation-data transport, ops framework
  event delivery) are modelled as plain state: reads always succeed and
  writes always take effect, exactly as the library itself assumes.
-/

mutual
/-- Document values stored in relation databags: the deserialized form of
the yaml documents this library reads, writes and validates.  Dictionaries
are a separate mutual inductive (`Entries`) so that recursive functions on
documents are structural. -/
inductive Val where
  | vstr (s : String)
  | vint (n : Int)
  | vnull
  | vdict (entries : Entries)

inductive Entries where
  | nil
  | cons (key : String) (value : Val) (rest : Entries)
end

mutual
/-- Structural equality of documents, modelling Python `==` / `!=` on the
deserialized yaml values. -/
def valBeq : Val → Val → Bool
  | .vstr a, .vstr b => a == b
  | .vint a, .vint b => a == b
  | .vnull, .vnull => true
  | .vdict a, .vdict b => entriesBeq a b
  | _, _ => false

def entriesBeq : Entries → Entries → Bool
  | .nil, .nil => true
  | .cons k1 v1 r1, .cons k2 v2 r2 => k1 == k2 && valBeq v1 v2 && entriesBeq r1 r2
  | _, _ => false
end

/-- Python dict lookup (`d[k]` / `d.get(k)`): first matching key. -/
def lookupE : Entries → String → Option Val
  | .nil, _ => none
  | .cons k v rest, key => if k = key then some v else lookupE rest key

/-- Python dict item assignment `d[k] = v`: replaces the value in place when
the key exists (keeping its position), otherwise appends the new pair
(insertion-order semantics of Python dicts). -/
def setE : Entries → String → Val → Entries
  | .nil, key, v => .cons key v .nil
  | .cons k w rest, key, v =>
      if k = key then .cons key v rest else .cons k w (setE rest key v)

/-- Conjunction of a predicate over all entries of a dictionary. -/
def allE (es : Entries) (p : String → Val → Bool) : Bool :=
  match es with
  | .nil => true
  | .cons k v rest => p k v && allE rest p

/-- Emptiness of a dictionary. -/
def isEmptyE : Entries → Bool
  | .nil => true
  | .cons _ _ _ => false

/-- Python truthiness of a document value. -/
def valTruthy : Val → Bool
  | .vstr s => !s.isEmpty
  | .vint n => n != 0
  | .vnull => false
  | .vdict es => !isEmptyE es

/-- Exceptions the library code can raise, as modelled outcomes.
`RelationException` subclasses carry the relation identity and the
offending entity name, mirroring the attributes stored by the source. -/
inductive Err where
  | dataValidationError
  | relationDataMismatchError (relationName : String) (relationId : Nat) (unitName : String)
  | relationPermissionError (relationName : String) (relationId : Nat)
      (entityName : String) (message : String)
  | attributeError
  | typeError
  | keyError
  deriving DecidableEq, Repr

/-- Status events emitted through the charm framework. -/
inductive EventKind where
  | ready
  | available
  | failed
  | ingressChanged
  deriving DecidableEq, Repr

/-- Required property of string type: jsonschema `"type": "string"` plus
membership in the `required` list. -/
def isReqStr (es : Entries) (key : String) : Bool :=
  match lookupE es key with
  | some (.vstr _) => true
  | _ => false

/-- Required property of integer type. -/
def isReqInt (es : Entries) (key : String) : Bool :=
  match lookupE es key with
  | some (.vint _) => true
  | _ => false

/-- Optional property of string type: when the key is present its value
must be a string, an absent key is fine. -/
def isOptStr (es : Entries) (key : String) : Bool :=
  match lookupE es key with
  | some (.vstr _) => true
  | none => true
  | some _ => false

/-- INGRESS_REQUIRES_UNIT_SCHEMA: an object with required string properties
`model`, `name`, `host` and required integer property `port`; additional
properties are unconstrained. -/
def ingressRequiresUnitSchema (v : Val) : Bool :=
  match v with
  | .vdict es =>
      isReqStr es "model" && isReqStr es "name" && isReqStr es "host" && isReqInt es "port"
  | _ => false

/-- One entry of the `ingress` map in INGRESS_PROVIDES_APP_SCHEMA: an object
with required string property `url` and tolerated optional string property
`_supported_versions`. -/
def validIngressEntry (v : Val) : Bool :=
  match v with
  | .vdict es => isReqStr es "url" && isOptStr es "_supported_versions"
  | _ => false

/-- INGRESS_PROVIDES_APP_SCHEMA: an object with required object property
`ingress` whose every entry (the empty pattern of `patternProperties`
matches every key) is a valid ingress entry. -/
def ingressProvidesAppSchema (v : Val) : Bool :=
  match v with
  | .vdict es =>
      match lookupE es "ingress" with
      | some (.vdict ing) => allE ing (fun _ entry => validIngressEntry entry)
      | _ => false
  | _ => false

/-- Model of `_validate_data`: raises `DataValidationError` when the
document fails the given schema. -/
def validateData (v : Val) (schema : Val → Bool) : Except Err Unit :=
  if schema v then .ok () else .error .dataValidationError

/-- One remote unit visible on a relation, together with the value stored
under the `"data"` key of its unit databag. -/
structure RUnit where
  name : String
  appName : String
  data : Option Val

/-- A relation as seen by one side of the interface.  `remoteApp` is
`relation.app` (`none` models a null reference, `some ""` the empty
application name Juju hands back during relation-broken hooks);
`localAppData` is the `"data"` key of this side's own application databag
and `remoteAppData` the same key of the remote application databag. -/
structure Relation where
  name : String
  id : Nat
  remoteApp : Option String
  units : List RUnit
  localAppData : Option Val
  remoteAppData : Option Val

/-- Ambient charm context: this unit's application name, unit name and
leadership flag. -/
structure Ctx where
  appName : String
  unitName : String
  isLeader : Bool

/-- Model of `_IngressPerUnitBase.is_available` on an explicit relation:
`if not relation.app.name: return False` — accessing `.name` on a null
application reference raises `AttributeError`; otherwise the relation is
available iff the remote application name is non-empty. -/
def baseIsAvailable (rel : Relation) : Except Err Bool :=
  match rel.remoteApp with
  | none => .error .attributeError
  | some an => .ok (!an.isEmpty)

/-- Model of `_IngressPerUnitBase.is_ready` on an explicit relation: the
null application reference is guarded (`if relation.app is None`), then the
empty name is checked; otherwise ready. -/
def baseIsReady (rel : Relation) : Bool :=
  match rel.remoteApp with
  | none => false
  | some an => !an.isEmpty

/-- Model of `_IngressPerUnitBase._handle_relation`: recompute the status
predicates in priority order and emit the corresponding event;
`if is_ready / elif is_available / elif is_failed / else log`.  The result
is the list of status events emitted during the pass; an exception escaping
one of the predicates propagates. -/
def handleRelation (isReadyF isAvailableF isFailedF : Relation → Except Err Bool)
    (rel : Relation) : Except Err (List EventKind) :=
  match isReadyF rel with
  | .error e => .error e
  | .ok true => .ok [.ready]
  | .ok false =>
      match isAvailableF rel with
      | .error e => .error e
      | .ok true => .ok [.available]
      | .ok false =>
          match isFailedF rel with
          | .error e => .error e
          | .ok true => .ok [.failed]
          | .ok false => .ok []

/-- Python `value.get(key, default)`: raises `AttributeError` when the
receiver is not a dict. -/
def valGetD (v : Val) (key : String) (dflt : Val) : Except Err Val :=
  match v with
  | .vdict es => .ok ((lookupE es key).getD dflt)
  | _ => .error .attributeError

/-- The loop of `_fetch_relation_data` over remote unit databags: an absent
or empty databag deserializes to an empty document; when `validate` is set
each non-empty databag is checked against the requirer schema. -/
def fetchUnits (validate : Bool) : List RUnit → Except Err (List (RUnit × Val))
  | [] => .ok []
  | u :: rest => do
      let d ←
        match u.data with
        | none => pure (Val.vdict .nil)
        | some v => do
            if validate then validateData v ingressRequiresUnitSchema
            pure v
      let tail ← fetchUnits validate rest
      pure ((u, d) :: tail)

/-- Model of `IngressPerUnitProvider._fetch_relation_data`: a missing or
unnamed remote application short-circuits to empty data; only the leader
reads its own application databag (followers get an empty aggregate); then
every remote unit databag is read.  With `validate` set, each non-empty
databag is schema-checked and a failure raises `DataValidationError`. -/
def fetchRelationData (ctx : Ctx) (rel : Relation) (validate : Bool) :
    Except Err (Val × List (RUnit × Val)) :=
  match rel.remoteApp with
  | none => .ok (.vdict .nil, [])
  | some an =>
      if an.isEmpty then .ok (.vdict .nil, [])
      else do
        let providerAppData ←
          if ctx.isLeader then
            match rel.localAppData with
            | none => pure (Val.vdict .nil)
            | some v => do
                if validate then validateData v ingressProvidesAppSchema
                valGetD v "ingress" (Val.vdict .nil)
          else pure (Val.vdict .nil)
        let requirerUnitData ← fetchUnits validate
          (rel.units.filter (fun u => u.appName != ctx.appName))
        pure (providerAppData, requirerUnitData)

/-- Model of `IngressPerUnitProvider.is_ready` on an explicit relation: the
base check first, then a fetch whose every exception is absorbed into
`False` (`except Exception: return False`), then Python truthiness of any
requirer unit document. -/
def providerIsReady (ctx : Ctx) (rel : Relation) : Except Err Bool :=
  if !baseIsReady rel then .ok false
  else
    match fetchRelationData ctx rel false with
    | .error _ => .ok false
    | .ok (_, requirerUnitData) =>
        .ok (requirerUnitData.any (fun p => valTruthy p.2))

/-- The cross-unit model consistency loop inside
`IngressPerUnitProvider.is_failed`: the first truthy `model` value becomes
the expected one; a later different value raises
`RelationDataMismatchError` naming the offending unit.  `"model" in d` on a
non-dict document would raise `TypeError` (unreachable after validation). -/
def checkModels (rel : Relation) : List (RUnit × Val) → Option Val → Except Err Unit
  | [], _ => .ok ()
  | (u, ud) :: rest, expected =>
      match ud with
      | .vdict es =>
          match lookupE es "model" with
          | none => checkModels rel rest expected
          | some remoteModel =>
              match expected with
              | none => checkModels rel rest (some remoteModel)
              | some e =>
                  if !valTruthy e then checkModels rel rest (some remoteModel)
                  else if valBeq e remoteModel then checkModels rel rest expected
                  else .error (.relationDataMismatchError rel.name rel.id u.name)
      | _ => .error .typeError

/-- Model of `IngressPerUnitProvider.is_failed` on an explicit relation:
unnamed remote application or no units cannot fail; a `DataValidationError`
from a validated fetch is absorbed into `True` (only that exception is
caught); then the cross-unit model check runs, whose mismatch exception
propagates to the caller. -/
def providerIsFailed (ctx : Ctx) (rel : Relation) : Except Err Bool :=
  match rel.remoteApp with
  | none => .error .attributeError
  | some an =>
      if an.isEmpty then .ok false
      else if rel.units.isEmpty then .ok false
      else
        match fetchRelationData ctx rel true with
        | .error .dataValidationError => .ok true
        | .error e => .error e
        | .ok (_, requirerUnitData) =>
            match checkModels rel requirerUnitData none with
            | .error e => .error e
            | .ok () => .ok false

/-- Model of `IngressPerUnitProvider.publish_url`.  The existing provider
databag is read (an absent or empty value resets the document to
`ingress: {}`); the document is then schema-validated and on failure the
method logs and returns without writing; otherwise
`data["ingress"][unit_name] = {"url": url}` is set and the document written
back.  The source performs no leadership check (its docstring assumes the
caller is the leader), so the context is unused. -/
def publishUrl (_ctx : Ctx) (rel : Relation) (unitName url : String) : Except Err Relation :=
  let data : Val :=
    match rel.localAppData with
    | none => .vdict (.cons "ingress" (.vdict .nil) .nil)
    | some v => v
  if ingressProvidesAppSchema data then
    match data with
    | .vdict es =>
        match lookupE es "ingress" with
        | some (.vdict ing) =>
            let entry := Val.vdict (.cons "url" (.vstr url) .nil)
            let newDoc := Val.vdict (setE es "ingress" (.vdict (setE ing unitName entry)))
            .ok { rel with localAppData := some newDoc }
        | some _ => .error .typeError
        | none => .error .keyError
    | _ => .error .typeError
  else .ok rel

/-- Model of `IngressPerUnitProvider.publish_ingress_data`: a non-leader
raises `RelationPermissionError` before touching the databag; the wrapped
aggregate is validated and only then written.  Returned together with the
post-state of the relation. -/
def publishIngressData (ctx : Ctx) (rel : Relation) (data : Entries) :
    Except Err Unit × Relation :=
  if !ctx.isLeader then
    (.error (.relationPermissionError rel.name rel.id ctx.unitName
        "This unit is not the leader"), rel)
  else
    let wrapped := Val.vdict (.cons "ingress" (.vdict data) .nil)
    match validateData wrapped ingressProvidesAppSchema with
    | .error e => (.error e, rel)
    | .ok () => (.ok (), { rel with localAppData := some wrapped })

/-- State of an `IngressPerUnitRequirer`: its unit name, the relations on
its endpoint (`self.relation` is the head) and the internal broken flag set
by the teardown notification. -/
structure Requirer where
  unitName : String
  relations : List Relation
  isRelationBroken : Bool

/-- The dict comprehension in `urls`:
`{unit_name: unit_data["url"] for unit_name, unit_data in ingress.items()}`.
Subscripting a non-dict raises `TypeError`, a missing `url` key raises
`KeyError` (both unreachable after validation). -/
def extractUrls : Entries → Except Err Entries
  | .nil => .ok .nil
  | .cons k v rest => do
      let u ←
        match v with
        | .vdict es =>
            match lookupE es "url" with
            | some uv => pure uv
            | none => Except.error Err.keyError
        | _ => Except.error Err.typeError
      let tail ← extractUrls rest
      pure (Entries.cons k u tail)

/-- Model of `IngressPerUnitRequirer.urls`: empty when unrelated or after
the broken flag is set; the remote application databag is read only when
the remote application name is non-empty; an absent or empty raw value
yields the empty mapping; otherwise the document is validated (raising
`DataValidationError` on failure) and the per-unit urls are extracted. -/
def requirerUrls (r : Requirer) : Except Err Entries :=
  match r.relations.head? with
  | none => .ok .nil
  | some rel =>
      if r.isRelationBroken then .ok .nil
      else
        match rel.remoteApp with
        | none => .error .attributeError
        | some an =>
            match (if an.isEmpty then none else rel.remoteAppData) with
            | none => .ok .nil
            | some data =>
                match validateData data ingressProvidesAppSchema with
                | .error e => .error e
                | .ok () =>
                    match data with
                    | .vdict es =>
                        match lookupE es "ingress" with
                        | some (.vdict ing) => extractUrls ing
                        | some _ => .error .typeError
                        | none => .ok .nil
                    | _ => .error .attributeError

/-- Model of `IngressPerUnitRequirer.url`: `None` when `urls` is falsy,
otherwise `urls.get(self.charm.unit.name)`. -/
def requirerUrl (r : Requirer) : Except Err (Option Val) :=
  match requirerUrls r with
  | .error e => .error e
  | .ok us => if isEmptyE us then .ok none else .ok (lookupE us r.unitName)

/-- Model of `IngressPerUnitRequirer.is_ready` on an explicit relation: the
base check first, then Python truthiness of `self.url` (whose exceptions
propagate). -/
def requirerIsReady (r : Requirer) (rel : Relation) : Except Err Bool :=
  if !baseIsReady rel then .ok false
  else
    match requirerUrl r with
    | .error e => .error e
    | .ok none => .ok false
    | .ok (some v) => .ok (valTruthy v)

/-- Model of `IngressPerUnitRequirer._emit_ingress_change_event`: a
relation-broken event sets the internal broken flag; in every case one
`ingress_changed` event is emitted. -/
def emitIngressChangeEvent (r : Requirer) (isRelationBrokenEvent : Bool) :
    Requirer × List EventKind :=
  let r2 := if isRelationBrokenEvent then { r with isRelationBroken := true } else r
  (r2, [.ingressChanged])

/-- Relation with the given document written to this side's own application
databag (the effect of `relation.data[self.app]["data"] = ...`). -/
def relWithData (rel : Relation) (d : Val) : Relation :=
  { rel with localAppData := some d }

/-- Induction principle for `Entries` (the mutual-inductive dictionary
spine), stated as a plain recursive definition. -/
def entriesInd {P : Entries → Prop} (hnil : P .nil)
    (hcons : ∀ k v rest, P rest → P (.cons k v rest)) : ∀ es, P es
  | .nil => hnil
  | .cons k v rest => hcons k v rest (entriesInd hnil hcons rest)

theorem lookupE_setE_self (es : Entries) (k : String) (v : Val) :
    lookupE (setE es k v) k = some v := by
  induction es using entriesInd with
  | hnil => simp [setE, lookupE]
  | hcons k2 w rest ih =>
      by_cases h : k2 = k
      · simp [setE, h, lookupE]
      · simp [setE, h, lookupE, ih]

theorem setE_setE_self (es : Entries) (k : String) (v : Val) :
    setE (setE es k v) k v = setE es k v := by
  induction es using entriesInd with
  | hnil => simp [setE]
  | hcons k2 w rest ih =>
      by_cases h : k2 = k
      · simp [setE, h]
      · simp [setE, h, ih]

theorem allE_setE (es : Entries) (p : String → Val → Bool) (k : String) (v : Val)
    (h1 : allE es p = true) (h2 : p k v = true) :
    allE (setE es k v) p = true := by
  induction es using entriesInd with
  | hnil => simp [setE, allE, h2]
  | hcons k2 w rest ih =>
      rw [allE] at h1
      rw [Bool.and_eq_true] at h1
      by_cases h : k2 = k
      · simp [setE, h, allE, h2, h1.2]
      · simp [setE, h, allE, h1.1, ih h1.2]

theorem provSchema_shape (v : Val) (h : ingressProvidesAppSchema v = true) :
    ∃ es ing, v = .vdict es ∧ lookupE es "ingress" = some (.vdict ing) ∧
      allE ing (fun _ entry => validIngressEntry entry) = true := by
  unfold ingressProvidesAppSchema at h
  split at h
  · next es =>
      split at h
      · next ing hl => exact ⟨es, ing, rfl, hl, h⟩
      · exact absurd h (by simp)
  · exact absurd h (by simp)

theorem publishUrl_absent (c : Ctx) (rel : Relation) (u url : String)
    (h : rel.localAppData = none) :
    publishUrl c rel u url = .ok (relWithData rel (.vdict (.cons "ingress" (.vdict (.cons u (.vdict (.cons "url" (.vstr url) .nil)) .nil)) .nil))) := by
  unfold publishUrl relWithData
  rw [h]
  rfl

theorem publishUrl_invalid (c : Ctx) (rel : Relation) (u url : String) (v : Val)
    (h : rel.localAppData = some v) (hv : ingressProvidesAppSchema v = false) :
    publishUrl c rel u url = .ok rel := by
  unfold publishUrl
  rw [h]
  simp [hv]

theorem publishUrl_valid (c : Ctx) (rel : Relation) (u url : String)
    (es ing : Entries)
    (h : rel.localAppData = some (.vdict es))
    (hl : lookupE es "ingress" = some (.vdict ing))
    (ha : allE ing (fun _ entry => validIngressEntry entry) = true) :
    publishUrl c rel u url = .ok (relWithData rel (.vdict (setE es "ingress" (.vdict (setE ing u (.vdict (.cons "url" (.vstr url) .nil))))))) := by
  unfold publishUrl relWithData
  rw [h]
  have hvalid : ingressProvidesAppSchema (.vdict es) = true := by
    simp only [ingressProvidesAppSchema]
    rw [hl]
    exact ha
  simp [hvalid, hl]

theorem publishUrl_total (c : Ctx) (rel : Relation) (u url : String) :
    ∃ rel2, publishUrl c rel u url = .ok rel2 := by
  cases hd : rel.localAppData with
  | none => exact ⟨_, publishUrl_absent c rel u url hd⟩
  | some v =>
      cases hv : ingressProvidesAppSchema v with
      | false => exact ⟨rel, publishUrl_invalid c rel u url v hd hv⟩
      | true =>
          obtain ⟨es, ing, rfl, hl, ha⟩ := provSchema_shape v hv
          exact ⟨_, publishUrl_valid c rel u url es ing hd hl ha⟩

theorem validIngressEntry_url (url : String) :
    validIngressEntry (.vdict (.cons "url" (.vstr url) .nil)) = true := rfl

/-! Claim C1. -/

def relBadDoc : Relation :=
  { name := "ingress-per-unit", id := 4, remoteApp := some "traefik", units := [],
    localAppData := none, remoteAppData := some (.vint 3) }

def rqPolling : Requirer :=
  { unitName := "app/0", relations := [relBadDoc], isRelationBroken := false }

/-- Claim C1, counterexample: the claim says the predicate methods never
raise, but `IngressPerUnitRequirer.is_ready` propagates the
`DataValidationError` raised by `urls` when the provider databag holds a
schema-invalid document (here the integer 3). -/
theorem requirer_is_ready_raises_counterexample :
    requirerIsReady rqPolling relBadDoc = .error .dataValidationError := rfl

/-- Claim C1, amended: `IngressPerUnitProvider.is_ready` never raises — its
fetch is wrapped in `except Exception: return False`, so every internal
error is absorbed into the boolean result.  (The other predicates are not
uniformly exception-safe: see the counterexample, and `is_failed` below.) -/
theorem provider_is_ready_never_raises (ctx : Ctx) (rel : Relation) :
    ∃ b, providerIsReady ctx rel = .ok b := by
  unfold providerIsReady
  split
  · exact ⟨false, rfl⟩
  · split
    · exact ⟨false, rfl⟩
    · exact ⟨_, rfl⟩

/-! Claim C5. -/

/-- Claim C5: within one notification-handling pass (`_handle_relation`)
over a relation, at most one of the Ready / Available / Failed events is
emitted, the predicates being evaluated in strict priority order
`is_ready`, then `is_available`, then `is_failed`; when none of the three
holds, no event is emitted (the case is only logged). -/
theorem handle_relation_at_most_one_event
    (pr av fl : Relation → Except Err Bool) (rel : Relation) (evs : List EventKind)
    (h : handleRelation pr av fl rel = .ok evs) :
    evs.length ≤ 1 ∧
    (evs = [.ready] ↔ pr rel = .ok true) ∧
    (evs = [.available] ↔ pr rel = .ok false ∧ av rel = .ok true) ∧
    (evs = [.failed] ↔ pr rel = .ok false ∧ av rel = .ok false ∧ fl rel = .ok true) ∧
    (evs = [] ↔ pr rel = .ok false ∧ av rel = .ok false ∧ fl rel = .ok false) := by
  cases hpr : pr rel with
  | error e =>
      have hval : handleRelation pr av fl rel = .error e := by
        unfold handleRelation
        rw [hpr]
      rw [hval] at h
      exact absurd h (by simp)
  | ok b1 =>
      cases b1 with
      | true =>
          have hval : handleRelation pr av fl rel = .ok [.ready] := by
            unfold handleRelation
            rw [hpr]
          rw [hval] at h
          injection h with h2
          subst h2
          simp [hpr]
      | false =>
          cases hav : av rel with
          | error e =>
              have hval : handleRelation pr av fl rel = .error e := by
                unfold handleRelation
                rw [hpr, hav]
              rw [hval] at h
              exact absurd h (by simp)
          | ok b2 =>
              cases b2 with
              | true =>
                  have hval : handleRelation pr av fl rel = .ok [.available] := by
                    unfold handleRelation
                    rw [hpr, hav]
                  rw [hval] at h
                  injection h with h2
                  subst h2
                  simp [hpr, hav]
              | false =>
                  cases hfl : fl rel with
                  | error e =>
                      have hval : handleRelation pr av fl rel = .error e := by
                        unfold handleRelation
                        rw [hpr, hav, hfl]
                      rw [hval] at h
                      exact absurd h (by simp)
                  | ok b3 =>
                      cases b3 with
                      | true =>
                          have hval : handleRelation pr av fl rel = .ok [.failed] := by
                            unfold handleRelation
                            rw [hpr, hav, hfl]
                          rw [hval] at h
                          injection h with h2
                          subst h2
                          simp [hpr, hav, hfl]
                      | false =>
                          have hval : handleRelation pr av fl rel = .ok [] := by
                            unfold handleRelation
                            rw [hpr, hav, hfl]
                          rw [hval] at h
                          injection h with h2
                          subst h2
                          simp [hpr, hav, hfl]

def relC5 : Relation :=
  { name := "ingress-per-unit", id := 20, remoteApp := some "remote", units := [],
    localAppData := none, remoteAppData := none }

/-- Claim C5, witness: a concrete pass whose ready predicate holds emits
exactly the Ready event. -/
theorem handle_relation_at_most_one_event_witness :
    ([EventKind.ready] : List EventKind).length ≤ 1 ∧
    ([EventKind.ready] = [EventKind.ready] ↔
      (fun _ : Relation => (Except.ok true : Except Err Bool)) relC5 = .ok true) :=
  ⟨(handle_relation_at_most_one_event (fun _ => .ok true) (fun _ => .ok false)
      (fun _ => .ok false) relC5 [.ready] rfl).1,
   (handle_relation_at_most_one_event (fun _ => .ok true) (fun _ => .ok false)
      (fun _ => .ok false) relC5 [.ready] rfl).2.1⟩

/-! Claim C6. -/

/-- Claim C6, amended: with an unresolved remote application whose
reference is present but empty-named, `is_available` and `is_ready` are
false on both roles regardless of partition contents; with a null remote
application reference, `is_ready` is still false but `is_available` raises
`AttributeError` instead of returning false (see the counterexample). -/
theorem unresolved_remote_app_not_ready (rel : Relation)
    (h : rel.remoteApp = none ∨ rel.remoteApp = some "") :
    baseIsReady rel = false ∧
    (∀ ctx, providerIsReady ctx rel = .ok false) ∧
    (∀ rq, requirerIsReady rq rel = .ok false) ∧
    (rel.remoteApp = some "" → baseIsAvailable rel = .ok false) := by
  have hbr : baseIsReady rel = false := by
    unfold baseIsReady
    rcases h with h | h <;> rw [h]
    rfl
  refine ⟨hbr, ?_, ?_, ?_⟩
  · intro ctx
    unfold providerIsReady
    rw [hbr]
    rfl
  · intro rq
    unfold requirerIsReady
    rw [hbr]
    rfl
  · intro h2
    unfold baseIsAvailable
    rw [h2]
    rfl

def relNullApp : Relation :=
  { name := "ingress-per-unit", id := 9, remoteApp := none, units := [],
    localAppData := none, remoteAppData := some (.vdict .nil) }

/-- Claim C6, counterexample: for an absent (null) remote application
reference — which the claim also calls unresolved — `is_available` does not
return false: `relation.app.name` raises `AttributeError` (the null guard
exists only in `is_ready`). -/
theorem is_available_raises_on_null_app :
    baseIsAvailable relNullApp = .error .attributeError ∧
    baseIsAvailable relNullApp ≠ .ok false := by
  refine ⟨rfl, ?_⟩
  intro hcontra
  rw [show baseIsAvailable relNullApp = Except.error Err.attributeError from rfl] at hcontra
  exact Except.noConfusion hcontra

def relEmptyName : Relation :=
  { name := "ingress-per-unit", id := 12, remoteApp := some "", units := [],
    localAppData := none,
    remoteAppData := some (.vdict (.cons "ingress" (.vdict .nil) .nil)) }

/-- Claim C6, witness: a concrete relation with an empty-named remote
application is neither available nor ready even though the remote databag
holds data. -/
theorem unresolved_remote_app_not_ready_witness :
    baseIsReady relEmptyName = false ∧ baseIsAvailable relEmptyName = .ok false :=
  ⟨(unresolved_remote_app_not_ready relEmptyName (Or.inr rfl)).1,
   (unresolved_remote_app_not_ready relEmptyName (Or.inr rfl)).2.2.2 rfl⟩

/-! Claim C7. -/

/-- Claim C7: after a teardown (relation-broken) notification is handled,
`urls` returns the empty mapping — the internal broken flag set by
`_emit_ingress_change_event` forces this, whatever readable data the
provider databag still holds. -/
theorem urls_empty_after_broken (r : Requirer) :
    requirerUrls (emitIngressChangeEvent r true).1 = .ok .nil := by
  unfold emitIngressChangeEvent requirerUrls
  cases h : r.relations.head? <;> simp [h]

/-! Claim C2. -/

theorem checkModels_cons_first (rel : Relation) (u : RUnit) (rest : List (RUnit × Val))
    (es : Entries) (m : Val) (hm : lookupE es "model" = some m) :
    checkModels rel ((u, .vdict es) :: rest) none = checkModels rel rest (some m) := by
  show (match lookupE es "model" with
        | none => checkModels rel rest none
        | some remoteModel => checkModels rel rest (some remoteModel)) =
      checkModels rel rest (some m)
  rw [hm]

theorem checkModels_cons_second (rel : Relation) (u : RUnit) (rest : List (RUnit × Val))
    (es : Entries) (m e : Val) (hm : lookupE es "model" = some m)
    (ht : valTruthy e = true) (hb : valBeq e m = false) :
    checkModels rel ((u, .vdict es) :: rest) (some e) =
      .error (.relationDataMismatchError rel.name rel.id u.name) := by
  show (match lookupE es "model" with
        | none => checkModels rel rest (some e)
        | some remoteModel =>
            if (!valTruthy e) = true then checkModels rel rest (some remoteModel)
            else if valBeq e remoteModel = true then checkModels rel rest (some e)
            else .error (.relationDataMismatchError rel.name rel.id u.name)) =
      .error (.relationDataMismatchError rel.name rel.id u.name)
  rw [hm]
  simp [ht, hb]

/-- Claim C2, amended: when a validated fetch yields two requirer unit
records whose `model` values are different strings (the first one
non-empty), `IngressPerUnitProvider.is_failed` raises
`RelationDataMismatchError` carrying the relation identity and the second
(offending) unit — it does not return true; the mismatch is surfaced only
as the propagating exception. -/
theorem provider_is_failed_mismatch_raises (ctx : Ctx) (rel : Relation) (an : String)
    (u1 u2 : RUnit) (es1 es2 : Entries) (pd : Val) (m1 m2 : String)
    (hApp : rel.remoteApp = some an) (hAn : an.isEmpty = false)
    (hUnits : rel.units.isEmpty = false)
    (hFetch : fetchRelationData ctx rel true = .ok (pd, [(u1, .vdict es1), (u2, .vdict es2)]))
    (hm1 : lookupE es1 "model" = some (.vstr m1))
    (hm2 : lookupE es2 "model" = some (.vstr m2))
    (hm1t : m1.isEmpty = false)
    (hne : m1 ≠ m2) :
    providerIsFailed ctx rel = .error (.relationDataMismatchError rel.name rel.id u2.name) := by
  have ht : valTruthy (.vstr m1) = true := by
    show (!m1.isEmpty) = true
    rw [hm1t]
    rfl
  have hb : valBeq (.vstr m1) (.vstr m2) = false := by
    show (m1 == m2) = false
    exact beq_eq_false_iff_ne.mpr hne
  have hchk : checkModels rel [(u1, .vdict es1), (u2, .vdict es2)] none =
      .error (.relationDataMismatchError rel.name rel.id u2.name) := by
    rw [checkModels_cons_first rel u1 [(u2, .vdict es2)] es1 (.vstr m1) hm1]
    exact checkModels_cons_second rel u2 [] es2 (.vstr m2) (.vstr m1) hm2 ht hb
  unfold providerIsFailed
  rw [hApp]
  simp only [hAn, Bool.false_eq_true, if_false, hUnits]
  rw [hFetch]
  simp only [hchk]

/-- Record published by a requirer unit reporting the given model (valid
against the requirer schema). -/
def recEntries (m : String) : Entries :=
  .cons "model" (.vstr m) (.cons "name" (.vstr "remote/x")
    (.cons "host" (.vstr "10.0.0.1") (.cons "port" (.vint 80) .nil)))

def unitM1 : RUnit := { name := "remote/0", appName := "remote", data := some (.vdict (recEntries "m1")) }

def unitM2 : RUnit := { name := "remote/1", appName := "remote", data := some (.vdict (recEntries "m2")) }

def ctxMismatch : Ctx := { appName := "traefik", unitName := "traefik/0", isLeader := true }

def relMismatch : Relation :=
  { name := "ingress-per-unit", id := 7, remoteApp := some "remote",
    units := [unitM1, unitM2], localAppData := none, remoteAppData := none }

/-- Claim C2, counterexample: with two units reporting models "m1" and
"m2", `is_failed` raises `RelationDataMismatchError` (naming the second
unit) instead of returning true as the claim states. -/
theorem provider_is_failed_mismatch_counterexample :
    providerIsFailed ctxMismatch relMismatch =
      .error (.relationDataMismatchError "ingress-per-unit" 7 "remote/1") ∧
    providerIsFailed ctxMismatch relMismatch ≠ .ok true := by
  refine ⟨rfl, ?_⟩
  intro hcontra
  rw [show providerIsFailed ctxMismatch relMismatch =
    Except.error (Err.relationDataMismatchError "ingress-per-unit" 7 "remote/1") from rfl]
    at hcontra
  exact Except.noConfusion hcontra

def unitW1 : RUnit := { name := "peer/0", appName := "peer", data := some (.vdict (recEntries "a")) }

def unitW2 : RUnit := { name := "peer/1", appName := "peer", data := some (.vdict (recEntries "b")) }

def ctxW2 : Ctx := { appName := "traefik", unitName := "traefik/0", isLeader := false }

def relW2 : Relation :=
  { name := "ingress-per-unit", id := 11, remoteApp := some "peer",
    units := [unitW1, unitW2], localAppData := none, remoteAppData := none }

/-- Claim C2, witness: the amended theorem applied at a concrete relation
with models "a" and "b". -/
theorem provider_is_failed_mismatch_raises_witness :
    providerIsFailed ctxW2 relW2 =
      .error (.relationDataMismatchError "ingress-per-unit" 11 "peer/1") :=
  provider_is_failed_mismatch_raises ctxW2 relW2 "peer" unitW1 unitW2
    (recEntries "a") (recEntries "b") (.vdict .nil) "a" "b"
    rfl rfl rfl rfl rfl rfl rfl (by decide)

/-! Claim C3. -/

/-- Claim C3, amended: when the provider databag is absent (or empty),
`publish_url` starts from the empty aggregate, sets
`ingress[unit_name] = {url}` and writes the result back; but when the
stored document is present and fails schema validation, `publish_url` logs
and returns without writing — the corrupt document is left in place and no
reset happens, so the new entry is not written in that case. -/
theorem publish_url_absent_or_corrupt (ctx : Ctx) (rel : Relation) (u url : String) :
    (rel.localAppData = none →
      publishUrl ctx rel u url = .ok (relWithData rel (.vdict (.cons "ingress" (.vdict (.cons u (.vdict (.cons "url" (.vstr url) .nil)) .nil)) .nil)))) ∧
    (∀ v, rel.localAppData = some v → ingressProvidesAppSchema v = false →
      publishUrl ctx rel u url = .ok rel) :=
  ⟨fun h => publishUrl_absent ctx rel u url h,
   fun v h hv => publishUrl_invalid ctx rel u url v h hv⟩

def ctxC3 : Ctx := { appName := "traefik", unitName := "traefik/0", isLeader := true }

def relCorruptC3 : Relation :=
  { name := "ingress-per-unit", id := 1, remoteApp := some "remote", units := [],
    localAppData := some (.vdict .nil), remoteAppData := none }

/-- Claim C3, counterexample: with a stored document that fails schema
validation (a dict without the required `ingress` key), `publish_url`
returns with the relation unchanged — the aggregate is not reset and the
new entry is not written, contradicting the claim that the entry is always
written. -/
theorem publish_url_corrupt_counterexample :
    publishUrl ctxC3 relCorruptC3 "remote/0" "http://e/0" = .ok relCorruptC3 ∧
    relCorruptC3.localAppData ≠ some (.vdict (.cons "ingress" (.vdict (.cons "remote/0" (.vdict (.cons "url" (.vstr "http://e/0") .nil)) .nil)) .nil)) := by
  refine ⟨rfl, ?_⟩
  intro hcontra
  simp [relCorruptC3] at hcontra

/-- Claim C3, witness: the corrupt branch of the amended theorem at a
concrete relation. -/
theorem publish_url_absent_or_corrupt_witness :
    publishUrl ctxC3 relCorruptC3 "remote/1" "http://e/1" = .ok relCorruptC3 :=
  (publish_url_absent_or_corrupt ctxC3 relCorruptC3 "remote/1" "http://e/1").2
    (.vdict .nil) rfl rfl

/-! Claim C4. -/

/-- Claim C4, amended: `publish_url` performs no leadership check at all —
its outcome is identical whatever the leadership flag, it always returns
normally, and in particular it never raises `RelationPermissionError`
(that exception is raised by `publish_ingress_data`, not `publish_url`;
enforcement for `publish_url` is left to the external databag store). -/
theorem publish_url_no_leader_check (ctx : Ctx) (rel : Relation) (u url : String) :
    ∃ rel2, publishUrl ctx rel u url = .ok rel2 ∧
      publishUrl { ctx with isLeader := true } rel u url = .ok rel2 ∧
      publishUrl { ctx with isLeader := false } rel u url = .ok rel2 := by
  obtain ⟨rel2, h⟩ := publishUrl_total ctx rel u url
  exact ⟨rel2, h, h, h⟩

def ctxFollower : Ctx := { appName := "traefik", unitName := "traefik/1", isLeader := false }

def relC4 : Relation :=
  { name := "ingress-per-unit", id := 5, remoteApp := some "remote", units := [],
    localAppData := none, remoteAppData := none }

def relC4After : Relation :=
  relWithData relC4 (.vdict (.cons "ingress" (.vdict (.cons "remote/0" (.vdict (.cons "url" (.vstr "http://e/0") .nil)) .nil)) .nil))

/-- Claim C4, counterexample: a non-leader calling `publish_url` does not
get a `RelationPermissionError` — the call returns normally and the
provider databag is modified, contradicting both halves of the claim. -/
theorem publish_url_nonleader_counterexample :
    ctxFollower.isLeader = false ∧
    publishUrl ctxFollower relC4 "remote/0" "http://e/0" = .ok relC4After ∧
    relC4After.localAppData ≠ relC4.localAppData := by
  refine ⟨rfl, rfl, ?_⟩
  simp [relC4After, relC4, relWithData]

/-! Claim C8. -/

/-- Second call of `publish_url` with the same unit name and url on a
relation whose databag already holds the result of a first successful
write: the stored aggregate is unchanged. -/
theorem publishUrl_written_idem (c : Ctx) (rel : Relation) (u url : String)
    (es ing : Entries)
    (ha : allE ing (fun _ entry => validIngressEntry entry) = true) :
    publishUrl c (relWithData rel (.vdict (setE es "ingress" (.vdict (setE ing u (.vdict (.cons "url" (.vstr url) .nil))))))) u url
      = .ok (relWithData rel (.vdict (setE es "ingress" (.vdict (setE ing u (.vdict (.cons "url" (.vstr url) .nil))))))) := by
  have h2 := publishUrl_valid c
      (relWithData rel (.vdict (setE es "ingress" (.vdict (setE ing u (.vdict (.cons "url" (.vstr url) .nil)))))))
      u url
      (setE es "ingress" (.vdict (setE ing u (.vdict (.cons "url" (.vstr url) .nil)))))
      (setE ing u (.vdict (.cons "url" (.vstr url) .nil)))
      rfl
      (lookupE_setE_self es "ingress" (.vdict (setE ing u (.vdict (.cons "url" (.vstr url) .nil)))))
      (allE_setE ing (fun _ entry => validIngressEntry entry) u
        (.vdict (.cons "url" (.vstr url) .nil)) ha (validIngressEntry_url url))
  rw [h2]
  rw [setE_setE_self ing u (.vdict (.cons "url" (.vstr url) .nil))]
  rw [setE_setE_self es "ingress" (.vdict (setE ing u (.vdict (.cons "url" (.vstr url) .nil))))]
  rfl

/-- Claim C8: `publish_url` is idempotent — a second call with the same
unit name and the same url leaves the aggregate stored in the provider
databag exactly as the first call left it. -/
theorem publish_url_idempotent (c : Ctx) (rel rel1 : Relation) (u url : String)
    (h : publishUrl c rel u url = .ok rel1) :
    publishUrl c rel1 u url = .ok rel1 := by
  cases hd : rel.localAppData with
  | none =>
      rw [publishUrl_absent c rel u url hd] at h
      injection h with h2
      subst h2
      have hidem := publishUrl_written_idem c rel u url
        (.cons "ingress" (.vdict .nil) .nil) .nil rfl
      exact hidem
  | some v =>
      cases hv : ingressProvidesAppSchema v with
      | false =>
          rw [publishUrl_invalid c rel u url v hd hv] at h
          injection h with h2
          subst h2
          exact publishUrl_invalid c rel u url v hd hv
      | true =>
          obtain ⟨es, ing, hveq, hl, ha⟩ := provSchema_shape v hv
          subst hveq
          rw [publishUrl_valid c rel u url es ing hd hl ha] at h
          injection h with h2
          subst h2
          exact publishUrl_written_idem c rel u url es ing ha

def ctxC8 : Ctx := { appName := "traefik", unitName := "traefik/0", isLeader := true }

def relC8 : Relation :=
  { name := "ingress-per-unit", id := 6, remoteApp := some "remote", units := [],
    localAppData := none, remoteAppData := none }

def relC8After : Relation :=
  relWithData relC8 (.vdict (.cons "ingress" (.vdict (.cons "remote/0" (.vdict (.cons "url" (.vstr "http://e/0") .nil)) .nil)) .nil))

/-- Claim C8, witness: a concrete first publish followed by the idempotence
theorem. -/
theorem publish_url_idempotent_witness :
    publishUrl ctxC8 relC8After "remote/0" "http://e/0" = .ok relC8After :=
  publish_url_idempotent ctxC8 relC8 relC8After "remote/0" "http://e/0" rfl

/-! Claim C10. -/

/-- Claim C10: `publish_ingress_data` is atomic on error — a non-leader
gets `RelationPermissionError` before the databag is touched, the wrapped
aggregate is validated before writing (an invalid aggregate raises
`DataValidationError` with the databag untouched), and the write happens
exactly when the caller is the leader and validation succeeds. -/
theorem publish_ingress_data_atomic (ctx : Ctx) (rel : Relation) (data : Entries) :
    (ctx.isLeader = false →
      publishIngressData ctx rel data = (.error (.relationPermissionError rel.name rel.id ctx.unitName "This unit is not the leader"), rel)) ∧
    (∀ e, (publishIngressData ctx rel data).1 = .error e → (publishIngressData ctx rel data).2 = rel) ∧
    (ctx.isLeader = true →
      ingressProvidesAppSchema (.vdict (.cons "ingress" (.vdict data) .nil)) = true →
      publishIngressData ctx rel data = (.ok (), relWithData rel (.vdict (.cons "ingress" (.vdict data) .nil)))) ∧
    (ctx.isLeader = true →
      ingressProvidesAppSchema (.vdict (.cons "ingress" (.vdict data) .nil)) = false →
      publishIngressData ctx rel data = (.error .dataValidationError, rel)) := by
  cases hL : ctx.isLeader with
  | false =>
      have hval : publishIngressData ctx rel data =
          (.error (.relationPermissionError rel.name rel.id ctx.unitName "This unit is not the leader"), rel) := by
        unfold publishIngressData
        rw [hL]
        rfl
      refine ⟨fun _ => hval, ?_, fun hT _ => absurd hT (by simp [hL]),
        fun hT _ => absurd hT (by simp [hL])⟩
      intro e he
      rw [hval]
  | true =>
      cases hv : ingressProvidesAppSchema (.vdict (.cons "ingress" (.vdict data) .nil)) with
      | true =>
          have hval : publishIngressData ctx rel data =
              (.ok (), relWithData rel (.vdict (.cons "ingress" (.vdict data) .nil))) := by
            unfold publishIngressData validateData relWithData
            rw [hL]
            simp [hv]
          refine ⟨fun hF => absurd hF (by simp [hL]), ?_, fun _ _ => hval,
            fun _ hcontra => absurd hcontra (by simp [hv])⟩
          intro e he
          rw [hval] at he
          exact absurd he (by simp)
      | false =>
          have hval : publishIngressData ctx rel data = (.error .dataValidationError, rel) := by
            unfold publishIngressData validateData
            rw [hL]
            simp [hv]
          refine ⟨fun hF => absurd hF (by simp [hL]), ?_,
            fun _ hcontra => absurd hcontra (by simp [hv]), fun _ _ => hval⟩
          intro e he
          rw [hval]

def ctxC10 : Ctx := { appName := "traefik", unitName := "traefik/1", isLeader := false }

def relC10 : Relation :=
  { name := "ingress-per-unit", id := 8, remoteApp := some "remote", units := [],
    localAppData := some (.vdict (.cons "ingress" (.vdict .nil) .nil)), remoteAppData := none }

/-- Claim C10, witness: a non-leader call raises the permission error and
leaves the stored databag untouched. -/
theorem publish_ingress_data_atomic_witness :
    publishIngressData ctxC10 relC10 .nil =
      (.error (.relationPermissionError "ingress-per-unit" 8 "traefik/1" "This unit is not the leader"), relC10) :=
  (publish_ingress_data_atomic ctxC10 relC10 .nil).1 rfl

/-! Claim C9: the wire codec for requirer records.

The serialization itself is performed by the external yaml library
(`yaml.safe_dump(data, indent=2)` / `yaml.safe_load` in `_serialize_data` /
`_deserialize_data`), which is not code of this repository.  The codec
below is therefore modelled from the spec (section 4.4): a human-readable,
whitespace-stable structured-text encoding that emits the four record keys
in sorted order (host, model, name, port), quotes string scalars with
backslash escapes, and prints the integer scalar in decimal. -/

/-- A requirer record: string fields `model`, `name`, `host` and integer
field `port` (the value built by `_publish_ingress_data`). -/
structure RequirerRecord where
  model : String
  name : String
  host : String
  port : Int
  deriving DecidableEq, Repr

/-- Modelled from the spec: escaping of one character inside a quoted
string scalar of the structured-text wire format. -/
def escChar (c : Char) : List Char :=
  if c = '\\' then ['\\', '\\']
  else if c = '"' then ['\\', '"']
  else if c = '\n' then ['\\', 'n']
  else [c]

/-- Escaping of a whole string scalar body. -/
def escChars : List Char → List Char
  | [] => []
  | c :: rest => escChar c ++ escChars rest

/-- Inverse of `escChar` on the character following a backslash. -/
def unescChar (c : Char) : Char :=
  if c = 'n' then '\n' else c

/-- Modelled from the spec: parse a quoted string scalar body up to its
closing quote, undoing the escapes; returns the body and the rest. -/
def parseQuoted : List Char → Option (List Char × List Char)
  | [] => none
  | c :: rest =>
      if c = '"' then some ([], rest)
      else if c = '\\' then
        match rest with
        | [] => none
        | e :: rest2 =>
            match parseQuoted rest2 with
            | none => none
            | some (s, r) => some (unescChar e :: s, r)
      else
        match parseQuoted rest with
        | none => none
        | some (s, r) => some (c :: s, r)

/-- Consume an expected literal at the head of the input. -/
def dropLit : List Char → List Char → Option (List Char)
  | [], cs => some cs
  | _ :: _, [] => none
  | p :: ps, c :: cs => if c = p then dropLit ps cs else none

/-- Decimal digit to character. -/
def digitChar10 : Nat → Char
  | 0 => '0'
  | 1 => '1'
  | 2 => '2'
  | 3 => '3'
  | 4 => '4'
  | 5 => '5'
  | 6 => '6'
  | 7 => '7'
  | 8 => '8'
  | _ => '9'

/-- Character to decimal digit value. -/
def charDigit (c : Char) : Nat := c.toNat - 48

/-- Decimal representation of a natural number. -/
def natChars (n : Nat) : List Char :=
  if n = 0 then ['0'] else ((Nat.digits 10 n).map digitChar10).reverse

/-- Decimal representation of an integer (the printing of the `port`
scalar). -/
def intChars (p : Int) : List Char :=
  if p < 0 then '-' :: natChars p.natAbs else natChars p.natAbs

/-- Split the longest digit run off the head of the input. -/
def parseDigits : List Char → List Char × List Char
  | [] => ([], [])
  | c :: cs =>
      if c.isDigit then
        let pr := parseDigits cs
        (c :: pr.1, pr.2)
      else ([], c :: cs)

/-- Numeric value of a digit run (most significant digit first). -/
def digitsVal (ds : List Char) : Nat := Nat.ofDigits 10 ((ds.map charDigit).reverse)

/-- Parse an integer scalar off the head of the input. -/
def parseIntChars (cs : List Char) : Option (Int × List Char) :=
  match cs with
  | [] => none
  | c :: rest =>
      if c = '-' then
        let pr := parseDigits rest
        if pr.1.isEmpty then none else some (-(digitsVal pr.1 : Int), pr.2)
      else
        let pr := parseDigits (c :: rest)
        if pr.1.isEmpty then none else some ((digitsVal pr.1 : Int), pr.2)

/-- Modelled from the spec: the serialized form of a requirer record, keys
in sorted order (host, model, name, port), one `key: value` line each. -/
def serializeRecordChars (r : RequirerRecord) : List Char :=
  "host: \"".data ++ (escChars r.host.data ++ ('"' :: ("\nmodel: \"".data ++ (escChars r.model.data ++ ('"' :: ("\nname: \"".data ++ (escChars r.name.data ++ ('"' :: ("\nport: ".data ++ (intChars r.port ++ ['\n']))))))))))

/-- Model of `_serialize_data` restricted to requirer records. -/
def serializeRequirerData (r : RequirerRecord) : String :=
  String.mk (serializeRecordChars r)

/-- Parser for the serialized form of a requirer record. -/
def parseRecordChars (cs0 : List Char) : Option RequirerRecord :=
  match dropLit "host: \"".data cs0 with
  | none => none
  | some cs1 =>
      match parseQuoted cs1 with
      | none => none
      | some (hch, cs2) =>
          match dropLit "\nmodel: \"".data cs2 with
          | none => none
          | some cs3 =>
              match parseQuoted cs3 with
              | none => none
              | some (mch, cs4) =>
                  match dropLit "\nname: \"".data cs4 with
                  | none => none
                  | some cs5 =>
                      match parseQuoted cs5 with
                      | none => none
                      | some (nch, cs6) =>
                          match dropLit "\nport: ".data cs6 with
                          | none => none
                          | some cs7 =>
                              match parseIntChars cs7 with
                              | none => none
                              | some (pv, cs8) =>
                                  if cs8 = ['\n'] then
                                    some { model := String.mk mch, name := String.mk nch,
                                           host := String.mk hch, port := pv }
                                  else none

/-- Model of `_deserialize_data` restricted to requirer records. -/
def deserializeRequirerData (s : String) : Option RequirerRecord :=
  parseRecordChars s.data

theorem dropLit_append (p r : List Char) : dropLit p (p ++ r) = some r := by
  induction p with
  | nil => rfl
  | cons c cs ih => simp [dropLit, ih]

theorem parseQuoted_escChars (s r : List Char) :
    parseQuoted (escChars s ++ ('"' :: r)) = some (s, r) := by
  induction s with
  | nil =>
      show parseQuoted ('"' :: r) = some ([], r)
      unfold parseQuoted
      simp
  | cons c cs ih =>
      by_cases h1 : c = '\\'
      · subst h1
        have he : escChars ('\\' :: cs) = '\\' :: '\\' :: escChars cs := by
          simp [escChars, escChar]
        rw [he, List.cons_append, List.cons_append]
        unfold parseQuoted
        simp [unescChar, ih]
      · by_cases h2 : c = '"'
        · subst h2
          have he : escChars ('"' :: cs) = '\\' :: '"' :: escChars cs := by
            simp [escChars, escChar]
          rw [he, List.cons_append, List.cons_append]
          unfold parseQuoted
          simp [unescChar, ih]
        · by_cases h3 : c = '\n'
          · subst h3
            have he : escChars ('\n' :: cs) = '\\' :: 'n' :: escChars cs := by
              simp [escChars, escChar]
            rw [he, List.cons_append, List.cons_append]
            unfold parseQuoted
            simp [unescChar, ih]
          · have he : escChars (c :: cs) = c :: escChars cs := by
              simp [escChars, escChar, h1, h2, h3]
            rw [he, List.cons_append]
            unfold parseQuoted
            simp [h1, h2, ih]

theorem digitChar10_isDigit (d : Nat) : (digitChar10 d).isDigit = true := by
  unfold digitChar10
  split <;> decide

theorem charDigit_digitChar10 (d : Nat) (h : d < 10) : charDigit (digitChar10 d) = d := by
  interval_cases d <;> rfl

theorem natChars_all_digit (n : Nat) : ∀ c ∈ natChars n, c.isDigit = true := by
  intro c hc
  unfold natChars at hc
  by_cases h : n = 0
  · simp [h] at hc
    subst hc
    decide
  · simp only [h, if_false, List.mem_reverse, List.mem_map] at hc
    obtain ⟨d, _, rfl⟩ := hc
    exact digitChar10_isDigit d

theorem natChars_ne_nil (n : Nat) : natChars n ≠ [] := by
  unfold natChars
  by_cases h : n = 0
  · simp [h]
  · simp [h, Nat.digits_ne_nil_iff_ne_zero]

theorem digitsVal_natChars (n : Nat) : digitsVal (natChars n) = n := by
  unfold digitsVal natChars
  by_cases h : n = 0
  · subst h
    decide
  · simp only [h, if_false]
    rw [List.map_reverse, List.reverse_reverse, List.map_map]
    have hmap : (Nat.digits 10 n).map (charDigit ∘ digitChar10) = Nat.digits 10 n := by
      conv_rhs => rw [← List.map_id (Nat.digits 10 n)]
      apply List.map_eq_map_iff.mpr
      intro d hd
      simp only [Function.comp_apply, id_eq]
      exact charDigit_digitChar10 d (Nat.digits_lt_base (by norm_num) hd)
    rw [hmap, Nat.ofDigits_digits]

theorem parseDigits_append (ds r : List Char)
    (hd : ∀ c ∈ ds, c.isDigit = true)
    (hr : match r with | [] => True | c :: _ => c.isDigit = false) :
    parseDigits (ds ++ r) = (ds, r) := by
  induction ds with
  | nil =>
      cases r with
      | nil => rfl
      | cons c cs =>
          simp only at hr
          simp [parseDigits, hr]
  | cons c cs ih =>
      have hc : c.isDigit = true := hd c (List.mem_cons_self c cs)
      have ih2 := ih (fun x hx => hd x (List.mem_cons_of_mem c hx))
      simp [parseDigits, hc, ih2]

theorem parseIntChars_intChars (p : Int) (r : List Char) :
    parseIntChars (intChars p ++ ('\n' :: r)) = some (p, '\n' :: r) := by
  have hdig : parseDigits (natChars p.natAbs ++ ('\n' :: r)) = (natChars p.natAbs, '\n' :: r) :=
    parseDigits_append _ _ (natChars_all_digit _) (by show ('\n').isDigit = false; decide)
  obtain ⟨c0, cs0, hcc⟩ := List.exists_cons_of_ne_nil (natChars_ne_nil p.natAbs)
  have hc0 : c0.isDigit = true := by
    have := natChars_all_digit p.natAbs c0
    rw [hcc] at this
    exact this (List.mem_cons_self c0 cs0)
  have hc0ne : ¬c0 = '-' := by
    intro heq
    rw [heq] at hc0
    exact absurd hc0 (by decide)
  have hne2 : (natChars p.natAbs).isEmpty = false := by
    rw [hcc]
    rfl
  have hval : digitsVal (natChars p.natAbs) = p.natAbs := digitsVal_natChars _
  by_cases hneg : p < 0
  · have h1 : intChars p = '-' :: natChars p.natAbs := by
      unfold intChars
      rw [if_pos hneg]
    rw [h1, List.cons_append]
    unfold parseIntChars
    simp only [if_pos rfl, hdig, hne2, if_false, hval]
    have hthis : -(p.natAbs : Int) = p := by omega
    rw [hthis]
    simp
  · have h1 : intChars p = natChars p.natAbs := by
      unfold intChars
      rw [if_neg hneg]
    rw [h1, hcc, List.cons_append]
    unfold parseIntChars
    simp only [hc0ne, if_false, ← List.cons_append, ← hcc, hdig, hne2, hval]
    have hthis : (p.natAbs : Int) = p := by omega
    rw [hthis]
    simp

/-- Claim C9: deserializing the serialization of a requirer record yields
an equal record — model, name, host and port are preserved exactly. -/
theorem requirer_record_roundtrip (r : RequirerRecord) :
    deserializeRequirerData (serializeRequirerData r) = some r := by
  unfold deserializeRequirerData serializeRequirerData serializeRecordChars parseRecordChars
  simp only [dropLit_append, parseQuoted_escChars, parseIntChars_intChars]
  rfl
